import Mathlib

/-!
# Verification development for the rusty-genius orchestration runtime

Shallow embedding of the core of the `rusty-genius` repository:

* the protocol types (`crates/core/src/protocol.rs`, `crates/core/src/manifest.rs`),
* the Asset Authority (`crates/facecrab/src/assets.rs`, `crates/facecrab/src/registry.rs`),
* the stub engine `Pinky` (`crates/cortex/src/backend/engine_stub.rs`),
* the real engine's generation loop (`crates/cortex/src/backend/engine_real.rs`),
* the orchestrator's per-message dispatch (`crates/brainstem/src/lib.rs`),
* the broadcast bridge (`crates/ogenius/src/main.rs`, `Serve` arm).

I/O, scheduling and the network are modelled by explicit state passing: the
filesystem is a finite set of paths, the HTTP layer is an oracle value
describing the response, channels become lists of the values sent into them.
-/

namespace RustyGenius

/-! ## Protocol types (crates/core/src/protocol.rs, manifest.rs) -/

inductive ThoughtEvent where
  | start
  | delta (s : String)
  | stop
  deriving Repr, DecidableEq

inductive InferenceEvent where
  | processStart
  | thought (t : ThoughtEvent)
  | content (s : String)
  | embedding (v : List Float)
  | complete
  deriving Repr

/-- `InferenceConfig` from crates/core/src/manifest.rs. -/
structure InferenceConfig where
  temperature : Float
  top_p : Option Float
  top_k : Option (Fin (2 ^ 32))
  repetition_penalty : Option Float
  max_tokens : Option Nat
  context_size : Option (Fin (2 ^ 32))
  show_thinking : Bool

/-- `InferenceConfig::default()` from crates/core/src/manifest.rs. -/
def InferenceConfig.default : InferenceConfig where
  temperature := 0.7
  top_p := some 0.9
  top_k := some 40
  repetition_penalty := some 1.1
  max_tokens := none
  context_size := some 2048
  show_thinking := true

structure BrainstemInputId where
  id : Option String

inductive BrainstemCommand where
  | loadModel (name : String)
  | infer (model : Option String) (prompt : String) (config : InferenceConfig)
  | embed (model : Option String) (input : String) (config : InferenceConfig)
  | listModels
  | reset
  | stop

structure BrainstemInput where
  id : Option String
  command : BrainstemCommand

structure ModelDescriptor where
  id : String
  purpose : String
  deriving Repr, DecidableEq

inductive AssetEvent where
  | started (name : String)
  | progress (current total : Nat)
  | complete (path : String)
  | error (msg : String)
  deriving Repr, DecidableEq

inductive BrainstemBody where
  | event (e : InferenceEvent)
  | asset (a : AssetEvent)
  | modelList (l : List ModelDescriptor)
  | error (s : String)

structure BrainstemOutput where
  id : Option String
  body : BrainstemBody

/-! ## Registry (crates/facecrab/src/registry.rs) -/

structure ModelSpec where
  repo : String
  filename : String
  quantization : String
  deriving Repr, DecidableEq

structure ModelEntry where
  name : String
  repo : String
  filename : String
  quantization : String
  deriving Repr, DecidableEq

/-- `ModelRegistry::resolve`: look up an entry by name and project it to a
`ModelSpec`.  The in-memory `HashMap<String, ModelEntry>` keyed by `name` is
modelled as an association list with at most one entry per name; lookup is
`List.find?` on the name. -/
def resolve (models : List ModelEntry) (name : String) : Option ModelSpec :=
  match models.find? (fun e => e.name == name) with
  | some entry => some { repo := entry.repo, filename := entry.filename,
                         quantization := entry.quantization }
  | none => none

/-! ## Filesystem and network model for the Asset Authority

The filesystem is the finite set of paths at which a regular file exists
(`List String` with set-like insert/erase).  The network is an oracle
(`HttpResult`) fixing what `surf` returns for the single GET the download
performs, and whether the partial-file creation and the final rename succeed.
-/

abbrev FS := List String

/-! Kernel-computable string splitting.  (Core's `String.splitOn` is defined
by well-founded recursion and does not reduce inside `decide`/`rfl` proofs,
so the Rust `str::split` / `str::contains` / `str::replace` operations are
modelled over character lists with structural recursion; the semantics for a
non-empty separator is that of Rust's non-overlapping left-to-right split.) -/

/-- First occurrence of `sep` in the list: the part before it and the part
after it, or `none` when `sep` does not occur. -/
def breakOn (sep : List Char) : List Char → Option (List Char × List Char)
  | [] => none
  | c :: rest =>
      if sep.isPrefixOf (c :: rest) then
        some ([], (c :: rest).drop sep.length)
      else
        (breakOn sep rest).map (fun q => (c :: q.1, q.2))

/-- Fuelled split; `fuel = l.length` always suffices for a non-empty `sep`. -/
def splitOnCharsFuel (sep : List Char) : Nat → List Char → List (List Char)
  | 0, l => [l]
  | fuel + 1, l =>
      match breakOn sep l with
      | none => [l]
      | some (before, after) => before :: splitOnCharsFuel sep fuel after

/-- Rust `str::split(sep)` (and core `String.splitOn`) for a non-empty
separator. -/
def strSplitOn (s sep : String) : List String :=
  (splitOnCharsFuel sep.toList s.length s.toList).map String.mk

/-- Join with a separator (the inverse of `strSplitOn`). -/
def joinWith (sep : String) : List String → String
  | [] => ""
  | [x] => x
  | x :: y :: xs => x ++ sep ++ joinWith sep (y :: xs)

/-- Rust `str::replace(pat, rep)`: non-overlapping left-to-right
replacement of every occurrence. -/
def strReplace (s pat rep : String) : String :=
  joinWith rep (strSplitOn s pat)

/-- `Path::with_extension("partial")`: replace the extension of the last path
component (the part after its last dot) with `partial`, or append `.partial`
when the component has no dot. -/
def withExtensionPartial (p : String) : String :=
  let comps := strSplitOn p "/"
  let name := comps.getLastD ""
  let parts := strSplitOn name "."
  let newName :=
    if parts.length ≤ 1 then name ++ ".partial"
    else joinWith "." (parts.dropLast) ++ ".partial"
  joinWith "/" (comps.dropLast ++ [newName])

/-- Outcome of streaming the response body through `futures::io::copy`:
either all chunks arrive, or the stream fails after a prefix of chunks.
Each `Nat` is the byte count of one successful `poll_read`. -/
inductive CopyOutcome where
  | ok (chunks : List Nat)
  | fail (chunks : List Nat) (msg : String)
  deriving Repr, DecidableEq

/-- What `client.get(&url)` produces, as an oracle. -/
inductive HttpResult where
  | requestFail (msg : String)
  | response (status : Nat) (contentLength : Option Nat) (body : CopyOutcome)
  deriving Repr, DecidableEq

/-- `surf::StatusCode::is_success`: 2xx. -/
def statusIsSuccess (status : Nat) : Bool :=
  200 ≤ status && status ≤ 299

/-- The environment one asset resolution runs against: the registry contents
(the source re-reads it from disk on each call via `AssetAuthority::new`, so a
fixed environment yields a fixed registry), the cache directory, and the
oracles for the network and the two filesystem operations of the download. -/
structure World where
  registry : List ModelEntry
  cacheDir : String
  http : HttpResult
  createPartialOk : Bool
  renameOk : Bool

/-- The `ProgressReader` emits `Progress(current, total)` after every
`poll_read` that returns `n > 0` bytes, with `current` the running sum.
(The source uses `try_send`, so under back-pressure a `Progress` may be
dropped by the channel; the model records the attempted sends.) -/
def progressEvents (chunks : List Nat) (total : Nat) : List AssetEvent :=
  go 0 chunks
where
  go (current : Nat) : List Nat → List AssetEvent
    | [] => []
    | n :: rest =>
      if n > 0 then AssetEvent.progress (current + n) total :: go (current + n) rest
      else go current rest

/-- Result of `download_file_with_events`: events sent into the channel, the
filesystem afterwards, and the `Result<()>`. -/
structure DlOut where
  events : List AssetEvent
  fs : FS
  result : Except String Unit

/-- `AssetAuthority::download_file_with_events` (assets.rs:119-168).
Performs the GET, checks the status, reads `Content-Length` (0 when absent),
creates `<final>.partial`, streams the body into it emitting progress, and on
success renames the partial to the final path.  A streaming failure removes
the partial file; a rename failure returns the error with the partial file
left in place. -/
def download_file_with_events (w : World) (finalPath : String) (fs : FS) : DlOut :=
  let partialPath := withExtensionPartial finalPath
  match w.http with
  | .requestFail msg =>
      { events := [], fs := fs, result := .error ("Surf request failed: " ++ msg) }
  | .response status contentLength body =>
      if ¬ statusIsSuccess status then
        { events := [], fs := fs,
          result := .error ("Download failed with status: " ++ toString status) }
      else
        let totalSize := contentLength.getD 0
        if ¬ w.createPartialOk then
          { events := [], fs := fs,
            result := .error "Failed to create partial file: io error" }
        else
          let fs1 := fs.insert partialPath
          match body with
          | .fail chunks msg =>
              { events := progressEvents chunks totalSize,
                fs := fs1.erase partialPath,
                result := .error ("Streaming failed: " ++ msg) }
          | .ok chunks =>
              if w.renameOk then
                { events := progressEvents chunks totalSize,
                  fs := (fs1.erase partialPath).insert finalPath,
                  result := .ok () }
              else
                { events := progressEvents chunks totalSize,
                  fs := fs1,
                  result := .error "Failed to finalize model file: io error" }

/-- Result of `ensure_model_internal`: the events sent into the channel, the
filesystem afterwards, and the `Result<PathBuf>`. -/
structure EnsureOut where
  events : List AssetEvent
  fs : FS
  result : Except String String

/-- `AssetAuthority::ensure_model_internal` (assets.rs:82-117).
Sends `Started(name)`; on a registry miss sends `Error(..)` and fails; on a
cache hit sends `Complete(path)`; otherwise runs the download — note that a
download failure propagates with `?` and sends no event — and on success sends
`Complete(path)`.  (`fs::create_dir_all(&cache_dir)` at line 97 is assumed to
succeed; directories are not modelled.) -/
def ensure_model_internal (w : World) (name : String) (fs : FS) : EnsureOut :=
  match resolve w.registry name with
  | none =>
      let err := "Model '" ++ name ++ "' not found in registry"
      { events := [.started name, .error err], fs := fs, result := .error err }
  | some spec =>
      let path := w.cacheDir ++ "/" ++ spec.filename
      if path ∈ fs then
        { events := [.started name, .complete path], fs := fs, result := .ok path }
      else
        let dl := download_file_with_events w path fs
        match dl.result with
        | .error e =>
            { events := .started name :: dl.events, fs := dl.fs, result := .error e }
        | .ok _ =>
            { events := .started name :: (dl.events ++ [.complete path]),
              fs := dl.fs, result := .ok path }

/-- `AssetAuthority::ensure_model` (assets.rs:52-66): drives
`ensure_model_internal` on a spawned task, drains and discards its events,
and returns the final `Result<PathBuf>`.  (The task re-creates the authority
with `AssetAuthority::new()`, assumed to succeed and, under a fixed
environment, to rebuild the same registry.) -/
def ensure_model (w : World) (name : String) (fs : FS) : FS × Except String String :=
  let r := ensure_model_internal w name fs
  (r.fs, r.result)

/-- `AssetAuthority::ensure_model_stream` (assets.rs:69-80): the stream a
caller observes is exactly the events `ensure_model_internal` sends; the
`Result` is discarded. -/
def ensure_model_stream (w : World) (name : String) (fs : FS) : List AssetEvent × FS :=
  let r := ensure_model_internal w name fs
  (r.events, r.fs)

/-! Event classification helpers. -/

def AssetEvent.isStarted : AssetEvent → Bool
  | .started _ => true
  | _ => false

def AssetEvent.isTerminal : AssetEvent → Bool
  | .complete _ => true
  | .error _ => true
  | _ => false

def AssetEvent.isProgress : AssetEvent → Bool
  | .progress _ _ => true
  | _ => false

def countStarted (evs : List AssetEvent) : Nat :=
  (evs.filter AssetEvent.isStarted).length

def countTerminal (evs : List AssetEvent) : Nat :=
  (evs.filter AssetEvent.isTerminal).length

def countProgress (evs : List AssetEvent) : Nat :=
  (evs.filter AssetEvent.isProgress).length

@[simp] theorem countStarted_nil : countStarted [] = 0 := rfl

@[simp] theorem countStarted_cons (e : AssetEvent) (l : List AssetEvent) :
    countStarted (e :: l) = (if e.isStarted then 1 else 0) + countStarted l := by
  simp only [countStarted, List.filter_cons]
  split <;> simp [Nat.add_comm]

@[simp] theorem countStarted_append (l₁ l₂ : List AssetEvent) :
    countStarted (l₁ ++ l₂) = countStarted l₁ + countStarted l₂ := by
  simp [countStarted, List.filter_append]

@[simp] theorem countTerminal_nil : countTerminal [] = 0 := rfl

@[simp] theorem countTerminal_cons (e : AssetEvent) (l : List AssetEvent) :
    countTerminal (e :: l) = (if e.isTerminal then 1 else 0) + countTerminal l := by
  simp only [countTerminal, List.filter_cons]
  split <;> simp [Nat.add_comm]

@[simp] theorem countTerminal_append (l₁ l₂ : List AssetEvent) :
    countTerminal (l₁ ++ l₂) = countTerminal l₁ + countTerminal l₂ := by
  simp [countTerminal, List.filter_append]

@[simp] theorem countProgress_nil : countProgress [] = 0 := rfl

@[simp] theorem countProgress_cons (e : AssetEvent) (l : List AssetEvent) :
    countProgress (e :: l) = (if e.isProgress then 1 else 0) + countProgress l := by
  simp only [countProgress, List.filter_cons]
  split <;> simp [Nat.add_comm]

@[simp] theorem countProgress_append (l₁ l₂ : List AssetEvent) :
    countProgress (l₁ ++ l₂) = countProgress l₁ + countProgress l₂ := by
  simp [countProgress, List.filter_append]

/-! ## The stub engine `Pinky` (crates/cortex/src/backend/engine_stub.rs)

This is the engine `create_engine` returns when the `real-engine` feature is
off, and hence the engine the orchestrator owns in the default build.  Its
only state is the `model_loaded` flag. -/

structure Pinky where
  model_loaded : Bool

/-- `Pinky::load_model`: sleeps, then sets the flag and returns `Ok(())`
regardless of the path. -/
def Pinky.load_model (_e : Pinky) (_model_path : String) : Pinky × Except String Unit :=
  ({ model_loaded := true }, .ok ())

/-- `Pinky::unload_model`. -/
def Pinky.unload_model (_e : Pinky) : Pinky × Except String Unit :=
  ({ model_loaded := false }, .ok ())

/-- `Pinky::is_loaded`. -/
def Pinky.is_loaded (e : Pinky) : Bool :=
  e.model_loaded

/-- `Pinky::default_model`. -/
def Pinky.default_model (_e : Pinky) : String :=
  "tiny-model"

/-- The mock embedding `(0..384).map(|i| (i as f32 * 0.01).sin())`. -/
def mockEmbedding : List Float :=
  (List.range 384).map (fun i => Float.sin (Float.ofNat i * 0.01))

/-- `Pinky::infer`: fails synchronously when no model is loaded, otherwise
returns the event stream its producer task sends (each item a
`Result<InferenceEvent>`; the stub only ever sends `Ok`s). -/
def Pinky.infer (e : Pinky) (prompt : String) (_config : InferenceConfig) :
    Except String (List (Except String InferenceEvent)) :=
  if ¬ e.model_loaded then
    .error "Pinky Error: No model loaded!"
  else
    .ok [.ok .processStart,
         .ok (.thought .start),
         .ok (.thought (.delta "Narf!")),
         .ok (.thought .stop),
         .ok (.content ("Pinky says: " ++ prompt)),
         .ok .complete]

/-- `Pinky::embed`. -/
def Pinky.embed (e : Pinky) (_input : String) (_config : InferenceConfig) :
    Except String (List (Except String InferenceEvent)) :=
  if ¬ e.model_loaded then
    .error "Pinky Error: No model loaded!"
  else
    .ok [.ok .processStart,
         .ok (.embedding mockEmbedding),
         .ok .complete]

/-! ## Orchestrator dispatch (crates/brainstem/src/lib.rs)

`Orchestrator::run` is an event loop; one iteration that received a message
is modelled by `handleMessage`, a pure function of the environment (`World`),
the filesystem, the orchestrator state and the message.  The outbound channel
is assumed open (a failed `send` would merely truncate the forwarding), and
the engine is the stub `Pinky`, as produced by `create_engine` in the default
build. -/

structure OrchState where
  engine : Pinky
  last_model_name : Option String

/-- Result of handling one inbound envelope: the `Output` envelopes sent, the
state and filesystem afterwards, and whether the loop breaks (`Stop`). -/
structure HandleResult where
  outputs : List BrainstemOutput
  state : OrchState
  fs : FS
  stopped : Bool

/-- The `path_to_load` the `LoadModel` arm ends up with after draining the
asset stream: the payload of the last `Complete` event, or the original
name when none arrived. -/
def pathToLoad (name : String) (events : List AssetEvent) : String :=
  events.foldl
    (fun acc e => match e with
      | .complete p => p
      | _ => acc)
    name

/-- Forward one drained engine-stream item as an `Output` envelope
(`Ok(event)` becomes `Event`, `Err(e)` becomes `Error(e.to_string())`). -/
def forwardEngineItem (rid : String) : Except String InferenceEvent → BrainstemOutput
  | .ok ev => { id := some rid, body := .event ev }
  | .error e => { id := some rid, body := .error e }

/-- One dispatch step of `Orchestrator::run` (brainstem/src/lib.rs:81-301) on
the message it received.  `request_id` is `msg.id` with `"anon"` substituted
for `None` (line 84); every emitted envelope carries `Some(request_id)`.
The dispatch `match` in the source has arms only for `LoadModel`, `Infer`,
`Embed` and `Stop`; for the remaining protocol variants (`ListModels`,
`Reset`) this embedding returns `none`. -/
def handleMessage (w : World) (fs : FS) (st : OrchState) (msg : BrainstemInput) :
    Option HandleResult :=
  let request_id := msg.id.getD "anon"
  match msg.command with
  | .loadModel name_or_path =>
      let r := ensure_model_internal w name_or_path fs
      let path := pathToLoad name_or_path r.events
      let assetOutputs := r.events.map
        (fun e => ({ id := some request_id, body := .asset e } : BrainstemOutput))
      let (engine', loadRes) := st.engine.load_model path
      match loadRes with
      | .error e =>
          some { outputs := assetOutputs ++ [{ id := some request_id, body := .error e }],
                 state := { engine := engine', last_model_name := st.last_model_name },
                 fs := r.fs, stopped := false }
      | .ok _ =>
          some { outputs := assetOutputs,
                 state := { engine := engine', last_model_name := some name_or_path },
                 fs := r.fs, stopped := false }
  | .infer model prompt config =>
      -- cold reload when the engine is not loaded
      let coldReload :
          (OrchState × FS × List BrainstemOutput) ⊕ (List BrainstemOutput) :=
        if ¬ st.engine.is_loaded then
          let model_to_load :=
            ((model.or st.last_model_name).getD (st.engine.default_model))
          let (fs', res) := ensure_model w model_to_load fs
          match res with
          | .ok path =>
              let (engine', loadRes) := st.engine.load_model path
              match loadRes with
              | .ok _ =>
                  .inl ({ engine := engine', last_model_name := some model_to_load },
                        fs', [])
              | .error e =>
                  .inr [{ id := some request_id,
                          body := .error ("Cold reload failed: " ++ e) }]
          | .error e =>
              .inr [{ id := some request_id,
                      body := .error ("Cold reload asset fail: " ++ e) }]
        else
          .inl (st, fs, [])
      match coldReload with
      | .inr errOutputs =>
          -- `continue`: skip the inference
          some { outputs := errOutputs, state := st, fs := fs, stopped := false }
      | .inl (st', fs', preOutputs) =>
          match st'.engine.infer prompt config with
          | .ok items =>
              some { outputs := preOutputs ++ items.map (forwardEngineItem request_id),
                     state := st', fs := fs', stopped := false }
          | .error e =>
              some { outputs := preOutputs ++ [{ id := some request_id, body := .error e }],
                     state := st', fs := fs', stopped := false }
  | .embed model input config =>
      let coldReload :
          (OrchState × FS × List BrainstemOutput) ⊕ (List BrainstemOutput) :=
        if ¬ st.engine.is_loaded then
          let model_to_load :=
            ((model.or st.last_model_name).getD (st.engine.default_model))
          let (fs', res) := ensure_model w model_to_load fs
          match res with
          | .ok path =>
              let (engine', loadRes) := st.engine.load_model path
              match loadRes with
              | .ok _ =>
                  .inl ({ engine := engine', last_model_name := some model_to_load },
                        fs', [])
              | .error e =>
                  .inr [{ id := some request_id,
                          body := .error ("Cold reload failed: " ++ e) }]
          | .error e =>
              .inr [{ id := some request_id,
                      body := .error ("Cold reload asset fail: " ++ e) }]
        else
          .inl (st, fs, [])
      match coldReload with
      | .inr errOutputs =>
          some { outputs := errOutputs, state := st, fs := fs, stopped := false }
      | .inl (st', fs', preOutputs) =>
          match st'.engine.embed input config with
          | .ok items =>
              some { outputs := preOutputs ++ items.map (forwardEngineItem request_id),
                     state := st', fs := fs', stopped := false }
          | .error e =>
              some { outputs := preOutputs ++ [{ id := some request_id, body := .error e }],
                     state := st', fs := fs', stopped := false }
  | .stop =>
      some { outputs := [], state := st, fs := fs, stopped := true }
  | .listModels => none
  | .reset => none

/-! ## Hibernation / loop head (brainstem/src/lib.rs:49-79)

Each iteration of `Orchestrator::run` first computes a timeout from the
strategy, unloads the engine when the inactivity deadline has passed, and
then waits on the inbound channel — either with the remaining timeout or
unboundedly.  Durations are modelled in nanoseconds as `Nat`. -/

inductive CortexStrategy where
  | immediate
  | hibernateAfter (d : Nat)
  | keepAlive

inductive WaitKind where
  | unbounded
  | timeout (d : Nat)
  deriving Repr, DecidableEq

structure LoopHead where
  unloadInvoked : Bool
  wait : WaitKind
  deriving Repr, DecidableEq

/-- The loop-head logic: `timeout_duration` per strategy (`Immediate` maps to
`Duration::ZERO`), then `elapsed ≥ d` triggers `unload_model` and an
unbounded wait, otherwise the wait is `d - elapsed`. -/
def loopHead (strategy : CortexStrategy) (elapsed : Nat) : LoopHead :=
  let timeout_duration : Option Nat :=
    match strategy with
    | .hibernateAfter d => some d
    | .immediate => some 0
    | .keepAlive => none
  match timeout_duration with
  | some d =>
      if elapsed ≥ d then
        { unloadInvoked := true, wait := .unbounded }
      else
        { unloadInvoked := false, wait := .timeout (d - elapsed) }
  | none => { unloadInvoked := false, wait := .unbounded }

/-- The engine state at the moment the loop blocks on the inbound channel:
`unload_model` has been applied when the loop head invoked it. -/
def engineAtWait (h : LoopHead) (e : Pinky) : Pinky :=
  if h.unloadInvoked then (e.unload_model).1 else e

/-! ## Spec-modelled `ListModels` / `Reset` arms

The dispatch `match` in brainstem/src/lib.rs has no arms for the protocol
variants `ListModels` and `Reset`, although `BrainstemCommand` declares them
and the HTTP edge (ogenius/src/api.rs) sends them. -/

/-- Modelled from the spec: how a `ModelDescriptor` is derived from a registry
entry is not fixed by the spec beyond `id` being the registry name and
`purpose ∈ {"Inference", "Embedding"}`; the model uses the name as `id` with
purpose `"Inference"`. -/
def descriptorsOfRegistry (models : List ModelEntry) : List ModelDescriptor :=
  models.map (fun e => { id := e.name, purpose := "Inference" })

/-- Modelled from the spec: the orchestrator's `ListModels` and `Reset`
command handlers are missing from the source under scrutiny (the dispatch
match has no arms for them).  Per the spec, `ListModels` emits
`Output{id, body=ModelList(descriptors)}` from the registry, and `Reset`
unloads the current model and emits a terminal `Event(Complete)` envelope as
acknowledgment.  All other commands delegate to the source embedding. -/
def handleMessageSpec (w : World) (fs : FS) (st : OrchState) (msg : BrainstemInput) :
    Option HandleResult :=
  match msg.command with
  | .listModels =>
      some { outputs := [{ id := msg.id, body := .modelList (descriptorsOfRegistry w.registry) }],
             state := st, fs := fs, stopped := false }
  | .reset =>
      let (engine', _) := st.engine.unload_model
      some { outputs := [{ id := msg.id, body := .event .complete }],
             state := { engine := engine', last_model_name := st.last_model_name },
             fs := fs, stopped := false }
  | _ => handleMessage w fs st msg

/-! ## The real engine's generation loop
(crates/cortex/src/backend/engine_real.rs:145-248)

The native sampler is an oracle: a list of sampled tokens, each with its
end-of-sequence flag and its decoded string.  A finite oracle prefix models a
finite window of the (conceptually unbounded) sampling process; when the
prefix is exhausted without the loop having broken, the loop is still
running, so no `Complete` has been emitted.  `ctx.decode` failures (which
break the loop with an in-stream error) are not modelled; neither claim under
scrutiny involves them. -/

structure Token where
  isEos : Bool
  str : String

/-- `let max_tokens = 512;` (engine_real.rs:148) — the hard generation limit;
`config.max_tokens` is not consulted. -/
def max_tokens : Nat := 512

/-- `let n_decode = 0;` (engine_real.rs:147).  The binding is immutable and
is never incremented anywhere in the loop. -/
def n_decode : Nat := 0

structure GenState where
  in_think_block : Bool
  token_str_buffer : String

/-- Rust `str::contains`: the split yields a single fragment exactly when the
(non-empty) pattern does not occur. -/
def containsSub (s pat : String) : Bool :=
  (strSplitOn s pat).length != 1

/-- One iteration's event emission for a non-terminating token
(engine_real.rs:169-234): push the token onto the buffer; recognize a
`<think>` opening only when `config.show_thinking` is set; inside a think
block route text to `Thought(Delta)` and recognize `</think>`; outside, flush
the buffer as `Content`. -/
def stepToken (show_thinking : Bool) (st : GenState) (token_str : String) :
    GenState × List InferenceEvent :=
  let buf0 := st.token_str_buffer ++ token_str
  let openCheck :=
    if !st.in_think_block && show_thinking && containsSub buf0 "<think>" then
      (true, strReplace buf0 "<think>" "", [InferenceEvent.thought .start])
    else
      (st.in_think_block, buf0, [])
  let (inThink1, buf1, evs1) := openCheck
  let thinkPhase :=
    if inThink1 then
      if containsSub buf1 "</think>" then
        let parts := strSplitOn buf1 "</think>"
        let deltaEvs :=
          match parts.head? with
          | some think_content =>
              if think_content ≠ "" then
                [InferenceEvent.thought (.delta think_content)]
              else []
          | none => []
        let rest := if parts.length > 1 then parts[1]! else ""
        (false, rest, deltaEvs ++ [InferenceEvent.thought .stop])
      else
        if buf1 ≠ "" then (true, "", [InferenceEvent.thought (.delta buf1)])
        else (true, buf1, [])
    else
      (inThink1, buf1, [])
  let (inThink2, buf2, evs2) := thinkPhase
  let contentPhase :=
    if !inThink2 && buf2 ≠ "" then ("", [InferenceEvent.content buf2])
    else (buf2, [])
  let (buf3, evs3) := contentPhase
  ({ in_think_block := inThink2, token_str_buffer := buf3 }, evs1 ++ evs2 ++ evs3)

/-- The generation loop (engine_real.rs:153-246) over a finite oracle prefix.
Returns the emitted events and whether the loop broke (hit the
`next_token == eos || n_decode >= max_tokens` check at line 165; since
`n_decode` is the immutable `0`, only the end-of-sequence disjunct can
fire). -/
def runGenLoop (show_thinking : Bool) : GenState → List Token →
    List InferenceEvent × Bool
  | _, [] => ([], false)
  | st, tok :: rest =>
      if tok.isEos || decide (n_decode ≥ max_tokens) then
        ([], true)
      else
        let (st', evs) := stepToken show_thinking st tok.str
        let (evs', fin) := runGenLoop show_thinking st' rest
        (evs ++ evs', fin)

/-- `Brain::infer`'s event stream for a sampled-token oracle prefix:
`ProcessStart` first, the loop's events, and the final `Complete`
(engine_real.rs:248) once — and only once — the loop has broken. -/
def brainInfer (show_thinking : Bool) (toks : List Token) :
    List InferenceEvent × Bool :=
  let (evs, fin) := runGenLoop show_thinking { in_think_block := false, token_str_buffer := "" } toks
  (InferenceEvent.processStart ::
    (evs ++ if fin then [InferenceEvent.complete] else []), fin)

/-! Inference-event classification helpers. -/

def InferenceEvent.isThought : InferenceEvent → Bool
  | .thought _ => true
  | _ => false

def InferenceEvent.isContent : InferenceEvent → Bool
  | .content _ => true
  | _ => false

def InferenceEvent.isComplete : InferenceEvent → Bool
  | .complete => true
  | _ => false

def countThought (evs : List InferenceEvent) : Nat :=
  (evs.filter InferenceEvent.isThought).length

def countContent (evs : List InferenceEvent) : Nat :=
  (evs.filter InferenceEvent.isContent).length

def countComplete (evs : List InferenceEvent) : Nat :=
  (evs.filter InferenceEvent.isComplete).length

/-- Does some `Content` event's payload contain `pat` as a substring? -/
def contentMentions (evs : List InferenceEvent) (pat : String) : Bool :=
  evs.any (fun e =>
    match e with
    | .content s => containsSub s pat
    | _ => false)

/-! ## The broadcast bridge (crates/ogenius/src/main.rs:481-498)

For each forwarded envelope the bridge `try_send`s a clone to every
registered subscriber, collects the indices whose send failed with
`is_disconnected()`, and removes them in reverse index order.  A subscriber
is a bounded sender: a closed (disconnected) flag, the free buffer capacity,
and the envelopes buffered so far.  The bridge is generic in the message
type, as the source is in nothing but `BrainstemOutput` clones. -/

inductive TrySendError where
  | full
  | disconnected
  deriving Repr, DecidableEq

structure Subscriber (α : Type) where
  disconnected : Bool
  freeSlots : Nat
  received : List α

/-- `mpsc::Sender::try_send`: fails with `is_disconnected` when the receiver
is gone, fails with `is_full` when the bounded buffer has no free slot, and
otherwise enqueues the message. -/
def trySend {α : Type} (s : Subscriber α) (msg : α) : Subscriber α × Option TrySendError :=
  if s.disconnected then (s, some .disconnected)
  else if s.freeSlots = 0 then (s, some .full)
  else ({ s with freeSlots := s.freeSlots - 1, received := s.received ++ [msg] },
        none)

/-- `for (i, x) in l.iter().enumerate() { if p x { out.push(i) } }`: the
positions (counting from `i0`) of the elements satisfying `p`, in increasing
order. -/
def idxsWhere {β : Type} (p : β → Bool) (i0 : Nat) : List β → List Nat
  | [] => []
  | r :: rest =>
      if p r then i0 :: idxsWhere p (i0 + 1) rest
      else idxsWhere p (i0 + 1) rest

/-- One envelope through the bridge loop body (main.rs:483-497): `try_send`
to every subscriber, push onto `to_remove` the indices whose error
`is_disconnected()`, then remove those indices in reverse order. -/
def bridgeStep {α : Type} (subs : List (Subscriber α)) (msg : α) : List (Subscriber α) :=
  let results := subs.map (fun s => trySend s msg)
  let senders := results.map Prod.fst
  let to_remove := idxsWhere (fun r => r.2 == some TrySendError.disconnected) 0 results
  to_remove.reverse.foldl (fun acc i => acc.eraseIdx i) senders

/-! ## Concrete environments used in witnesses and counterexamples -/

/-- A world whose registry has `tiny-model` and whose download succeeds. -/
def w0 : World := {
  registry := [⟨"tiny-model", "org/tiny", "tiny.gguf", "q4"⟩],
  cacheDir := "/cache",
  http := .response 200 (some 10) (.ok [4, 6]),
  createPartialOk := true,
  renameOk := true }

/-- Same registry; the GET answers with HTTP 404. -/
def w404 : World := { w0 with http := .response 404 none (.ok []) }

/-- Same registry; the body stream fails after one 4-byte chunk. -/
def wStreamFail : World := { w0 with http := .response 200 (some 10) (.fail [4] "reset") }

/-- Same registry; the download streams fully but the final rename fails. -/
def wRename : World := { w0 with renameOk := false }

/-- An orchestrator state with an unloaded engine and no remembered model. -/
def st0 : OrchState := { engine := { model_loaded := false }, last_model_name := none }

/-- The orchestrator's result for `LoadModel("tiny-model")` at `w0` from an
empty cache: four forwarded asset envelopes, engine loaded,
`last_model_name` remembered. -/
def r0 : HandleResult :=
  { outputs :=
      [{ id := some "r1", body := .asset (.started "tiny-model") },
       { id := some "r1", body := .asset (.progress 4 10) },
       { id := some "r1", body := .asset (.progress 10 10) },
       { id := some "r1", body := .asset (.complete "/cache/tiny.gguf") }],
    state := { engine := { model_loaded := true }, last_model_name := some "tiny-model" },
    fs := ["/cache/tiny.gguf"],
    stopped := false }

/-- A sampled-token oracle of 600 ordinary tokens with no end-of-sequence
token among them. -/
def nonEosToks : List Token := List.replicate 600 { isEos := false, str := "A" }

/-- A sampled-token oracle producing a think block, trailing content, and
then the end-of-sequence token. -/
def leakToks : List Token :=
  [{ isEos := false, str := "<think>" }, { isEos := false, str := "secret" },
   { isEos := false, str := "</think>" }, { isEos := false, str := "done" },
   { isEos := true, str := "" }]

/-- A live subscriber whose bounded buffer is full. -/
def fullSub : Subscriber Nat := { disconnected := false, freeSlots := 0, received := [] }

/-- A live subscriber with room in its buffer. -/
def okSub : Subscriber Nat := { disconnected := false, freeSlots := 5, received := [] }

/-- A subscriber whose receiver is closed. -/
def closedSub : Subscriber Nat := { disconnected := true, freeSlots := 5, received := [] }

/-! ## Supporting lemmas on the Asset Authority -/

theorem progressEvents_go_all_progress (t : Nat) (chunks : List Nat) :
    ∀ (c : Nat), ∀ e ∈ progressEvents.go t c chunks, e.isProgress = true := by
  induction chunks with
  | nil =>
      intro c e he
      simp [progressEvents.go] at he
  | cons n rest ih =>
      intro c e he
      unfold progressEvents.go at he
      by_cases h : n > 0
      · rw [if_pos h] at he
        rcases List.mem_cons.mp he with h1 | h1
        · subst h1; rfl
        · exact ih _ e h1
      · rw [if_neg h] at he
        exact ih _ e he

theorem progressEvents_all_progress (chunks : List Nat) (t : Nat) :
    ∀ e ∈ progressEvents chunks t, e.isProgress = true := by
  intro e he
  exact progressEvents_go_all_progress t chunks 0 e he

theorem download_events_all_progress (w : World) (p : String) (fs : FS) :
    ∀ e ∈ (download_file_with_events w p fs).events, e.isProgress = true := by
  intro e he
  obtain ⟨reg, cd, http, cpo, rok⟩ := w
  rcases http with msg | ⟨status, cl, body⟩
  · simp [download_file_with_events] at he
  · rcases body with ⟨chunks⟩ | ⟨chunks, m⟩ <;>
      by_cases hs : statusIsSuccess status = true <;>
      by_cases hc : cpo = true <;>
      by_cases hr : rok = true <;>
      simp_all [download_file_with_events] <;>
      exact progressEvents_all_progress _ _ e he

theorem isProgress_not_terminal {e : AssetEvent} (h : e.isProgress = true) :
    e.isTerminal = false := by
  cases e <;> simp_all [AssetEvent.isProgress, AssetEvent.isTerminal]

theorem isProgress_not_started {e : AssetEvent} (h : e.isProgress = true) :
    e.isStarted = false := by
  cases e <;> simp_all [AssetEvent.isProgress, AssetEvent.isStarted]

theorem countTerminal_download (w : World) (p : String) (fs : FS) :
    countTerminal (download_file_with_events w p fs).events = 0 := by
  unfold countTerminal
  rw [List.length_eq_zero, List.filter_eq_nil_iff]
  intro a ha
  simp [isProgress_not_terminal (download_events_all_progress w p fs a ha)]

theorem countStarted_download (w : World) (p : String) (fs : FS) :
    countStarted (download_file_with_events w p fs).events = 0 := by
  unfold countStarted
  rw [List.length_eq_zero, List.filter_eq_nil_iff]
  intro a ha
  simp [isProgress_not_started (download_events_all_progress w p fs a ha)]

/-- A download whose `Result` is `Ok` published the final path: the partial
file was created, streamed to, and atomically renamed onto the final path. -/
theorem download_ok_fs (w : World) (p : String) (fs : FS)
    (h : ∃ u, (download_file_with_events w p fs).result = .ok u) :
    (download_file_with_events w p fs).fs =
      ((fs.insert (withExtensionPartial p)).erase (withExtensionPartial p)).insert p := by
  obtain ⟨u, hu⟩ := h
  obtain ⟨reg, cd, http, cpo, rok⟩ := w
  rcases http with msg | ⟨status, cl, body⟩
  · simp [download_file_with_events] at hu
  · rcases body with ⟨chunks⟩ | ⟨chunks, m⟩ <;>
      by_cases hs : statusIsSuccess status = true <;>
      by_cases hc : cpo = true <;>
      by_cases hr : rok = true <;>
      simp_all [download_file_with_events]

/-! ## C2 — asset-event lifecycle -/

/-- **C2, counterexample.** A resolution of a registered model whose download
fails with HTTP 404 ends its event stream with `Started` alone: the failure
propagates with `?` out of `ensure_model_internal` without any terminal
`Error` event being emitted, refuting the claim that every resolution failing
during download emits a terminal `Error` before the stream ends. -/
theorem C2_counterexample :
    (ensure_model_internal w404 "tiny-model" []).result =
      .error "Download failed with status: 404"
    ∧ (ensure_model_internal w404 "tiny-model" []).events = [.started "tiny-model"]
    ∧ countTerminal (ensure_model_internal w404 "tiny-model" []).events = 0 :=
  ⟨rfl, rfl, rfl⟩

/-- **C2, amended.** Every asset resolution emits exactly one `Started`, and
a successful resolution is terminated by exactly one terminal event (its last
event, `Complete(path)`); a registry miss produces exactly
`Started → Error`; but a resolution of a registered name that fails during
the download emits no terminal event at all before the stream ends. -/
theorem C2_asset_lifecycle (w : World) (name : String) (fs : FS) :
    countStarted (ensure_model_internal w name fs).events = 1
    ∧ (∀ p, (ensure_model_internal w name fs).result = .ok p →
        countTerminal (ensure_model_internal w name fs).events = 1
        ∧ (ensure_model_internal w name fs).events.getLast? = some (.complete p))
    ∧ (resolve w.registry name = none →
        (ensure_model_internal w name fs).events =
          [.started name, .error ("Model '" ++ name ++ "' not found in registry")])
    ∧ (∀ e, (ensure_model_internal w name fs).result = .error e →
        resolve w.registry name ≠ none →
        countTerminal (ensure_model_internal w name fs).events = 0) := by
  rcases hres : resolve w.registry name with _ | spec
  · refine ⟨?_, ?_, ?_, ?_⟩
    · simp [ensure_model_internal, hres, AssetEvent.isStarted]
    · intro p hp
      simp [ensure_model_internal, hres] at hp
    · intro _
      simp [ensure_model_internal, hres]
    · intro e _ hne
      exact absurd rfl hne
  · by_cases hmem : (w.cacheDir ++ "/" ++ spec.filename) ∈ fs
    · refine ⟨?_, ?_, ?_, ?_⟩
      · simp [ensure_model_internal, hres, hmem, AssetEvent.isStarted]
      · intro p hp
        simp [ensure_model_internal, hres, hmem] at hp
        subst hp
        refine ⟨?_, ?_⟩
        · simp [ensure_model_internal, hres, hmem, AssetEvent.isTerminal]
        · simp [ensure_model_internal, hres, hmem]
      · intro hnone
        simp at hnone
      · intro e he _
        simp [ensure_model_internal, hres, hmem] at he
    · have hcS := countStarted_download w (w.cacheDir ++ "/" ++ spec.filename) fs
      have hcT := countTerminal_download w (w.cacheDir ++ "/" ++ spec.filename) fs
      rcases hdl : (download_file_with_events w (w.cacheDir ++ "/" ++ spec.filename) fs).result
        with e | u
      · refine ⟨?_, ?_, ?_, ?_⟩
        · simp [ensure_model_internal, hres, hmem, hdl, AssetEvent.isStarted, hcS]
        · intro p hp
          simp [ensure_model_internal, hres, hmem, hdl] at hp
        · intro hnone
          simp at hnone
        · intro e' _ _
          simp [ensure_model_internal, hres, hmem, hdl, AssetEvent.isTerminal, hcT]
      · refine ⟨?_, ?_, ?_, ?_⟩
        · simp [ensure_model_internal, hres, hmem, hdl, AssetEvent.isStarted, hcS]
        · intro p hp
          simp [ensure_model_internal, hres, hmem, hdl] at hp
          subst hp
          refine ⟨?_, ?_⟩
          · simp [ensure_model_internal, hres, hmem, hdl, AssetEvent.isTerminal,
              AssetEvent.isStarted, hcT]
          · have hev : (ensure_model_internal w name fs).events =
                (AssetEvent.started name ::
                  (download_file_with_events w (w.cacheDir ++ "/" ++ spec.filename) fs).events)
                ++ [AssetEvent.complete (w.cacheDir ++ "/" ++ spec.filename)] := by
              simp [ensure_model_internal, hres, hmem, hdl]
            rw [hev, List.getLast?_concat]
        · intro hnone
          simp at hnone
        · intro e' he' _
          simp [ensure_model_internal, hres, hmem, hdl] at he'

/-- **C2, witness.** The amended lifecycle at concrete worlds: the successful
resolution emits one `Started` and one terminal event; the 404 resolution
emits none. -/
theorem C2_asset_lifecycle_witness :
    countStarted (ensure_model_internal w0 "tiny-model" []).events = 1
    ∧ countTerminal (ensure_model_internal w0 "tiny-model" []).events = 1
    ∧ countTerminal (ensure_model_internal w404 "tiny-model" []).events = 0 := by
  refine ⟨(C2_asset_lifecycle w0 "tiny-model" []).1, ?_, ?_⟩
  · exact ((C2_asset_lifecycle w0 "tiny-model" []).2.1 "/cache/tiny.gguf" (by rfl)).1
  · exact (C2_asset_lifecycle w404 "tiny-model" []).2.2.2
      "Download failed with status: 404" (by rfl) (by decide)

/-! ## C3 — partial-file cleanup -/

/-- **C3, counterexample.** When the body streams fully but the atomic rename
fails, `download_file_with_events` returns the error without removing the
partial file: after the failed resolution the `.partial` sibling remains,
refuting the claim that every failure after partial-file creation deletes
it. -/
theorem C3_counterexample :
    (ensure_model_internal wRename "tiny-model" []).result =
      .error "Failed to finalize model file: io error"
    ∧ (ensure_model_internal wRename "tiny-model" []).fs = ["/cache/tiny.partial"]
    ∧ withExtensionPartial "/cache/tiny.gguf" = "/cache/tiny.partial" :=
  ⟨rfl, rfl, rfl⟩

/-- **C3, amended.** For a fresh resolution of a registered name (final path
and partial path absent): a streaming failure deletes the partial file, so
neither the final path nor the `.partial` sibling exists afterwards; but a
rename failure leaves the `.partial` file in place (the final path still does
not exist). -/
theorem C3_partial_cleanup (w : World) (name : String) (spec : ModelSpec) (fs : FS)
    (hres : resolve w.registry name = some spec)
    (hfinal : (w.cacheDir ++ "/" ++ spec.filename) ∉ fs)
    (hpart : withExtensionPartial (w.cacheDir ++ "/" ++ spec.filename) ∉ fs)
    (hne : withExtensionPartial (w.cacheDir ++ "/" ++ spec.filename) ≠
      (w.cacheDir ++ "/" ++ spec.filename)) :
    (∀ status cl chunks m, w.http = .response status cl (.fail chunks m) →
      statusIsSuccess status = true → w.createPartialOk = true →
      withExtensionPartial (w.cacheDir ++ "/" ++ spec.filename)
          ∉ (ensure_model_internal w name fs).fs
        ∧ (w.cacheDir ++ "/" ++ spec.filename) ∉ (ensure_model_internal w name fs).fs)
    ∧ (∀ status cl chunks, w.http = .response status cl (.ok chunks) →
      statusIsSuccess status = true → w.createPartialOk = true → w.renameOk = false →
      withExtensionPartial (w.cacheDir ++ "/" ++ spec.filename)
          ∈ (ensure_model_internal w name fs).fs
        ∧ (w.cacheDir ++ "/" ++ spec.filename) ∉ (ensure_model_internal w name fs).fs) := by
  constructor
  · intro status cl chunks m hhttp hs hc
    have : (ensure_model_internal w name fs).fs = fs := by
      simp [ensure_model_internal, hres, hfinal, download_file_with_events, hhttp, hs, hc,
        List.insert_of_not_mem hpart]
    rw [this]
    exact ⟨hpart, hfinal⟩
  · intro status cl chunks hhttp hs hc hr
    have : (ensure_model_internal w name fs).fs =
        withExtensionPartial (w.cacheDir ++ "/" ++ spec.filename) :: fs := by
      simp [ensure_model_internal, hres, hfinal, download_file_with_events, hhttp, hs, hc, hr,
        List.insert_of_not_mem hpart]
    rw [this]
    refine ⟨List.mem_cons_self _ _, ?_⟩
    simp [List.mem_cons]
    exact ⟨fun hEq => hne hEq.symm, hfinal⟩

/-- **C3, witness.** The amended cleanup behaviour at the two concrete failing
worlds: after the streaming failure no partial remains; after the rename
failure the partial remains. -/
theorem C3_partial_cleanup_witness :
    ("/cache/tiny.partial" ∉ (ensure_model_internal wStreamFail "tiny-model" []).fs
      ∧ "/cache/tiny.gguf" ∉ (ensure_model_internal wStreamFail "tiny-model" []).fs)
    ∧ ("/cache/tiny.partial" ∈ (ensure_model_internal wRename "tiny-model" []).fs
      ∧ "/cache/tiny.gguf" ∉ (ensure_model_internal wRename "tiny-model" []).fs) := by
  constructor
  · have h := (C3_partial_cleanup wStreamFail "tiny-model"
      ⟨"org/tiny", "tiny.gguf", "q4"⟩ [] (by decide) (by decide) (by decide) (by decide)).1
      200 (some 10) [4] "reset" rfl rfl rfl
    have e1 : withExtensionPartial (wStreamFail.cacheDir ++ "/" ++
        (⟨"org/tiny", "tiny.gguf", "q4"⟩ : ModelSpec).filename) = "/cache/tiny.partial" := rfl
    have e2 : wStreamFail.cacheDir ++ "/" ++
        (⟨"org/tiny", "tiny.gguf", "q4"⟩ : ModelSpec).filename = "/cache/tiny.gguf" := rfl
    rw [e1, e2] at h
    exact h
  · have h := (C3_partial_cleanup wRename "tiny-model"
      ⟨"org/tiny", "tiny.gguf", "q4"⟩ [] (by decide) (by decide) (by decide) (by decide)).2
      200 (some 10) [4, 6] rfl rfl rfl rfl
    have e1 : withExtensionPartial (wRename.cacheDir ++ "/" ++
        (⟨"org/tiny", "tiny.gguf", "q4"⟩ : ModelSpec).filename) = "/cache/tiny.partial" := rfl
    have e2 : wRename.cacheDir ++ "/" ++
        (⟨"org/tiny", "tiny.gguf", "q4"⟩ : ModelSpec).filename = "/cache/tiny.gguf" := rfl
    rw [e1, e2] at h
    exact h

/-! ## C9 — cache probe short-circuits the second resolution -/

/-- **C9.** If `ensure_model(name)` succeeds with path `p`, a second call on
the resulting filesystem returns the same path and the same filesystem, and
its event stream is exactly `Started(name)` then `Complete(p)` with no
`Progress` events: the cache probe short-circuits the download. -/
theorem C9_ensure_model_idempotent (w : World) (name : String) (fs fs₁ : FS) (p : String)
    (h : ensure_model w name fs = (fs₁, .ok p)) :
    ensure_model w name fs₁ = (fs₁, .ok p)
    ∧ (ensure_model_stream w name fs₁).1 = [.started name, .complete p]
    ∧ countProgress (ensure_model_stream w name fs₁).1 = 0 := by
  rcases hres : resolve w.registry name with _ | spec
  · simp [ensure_model, ensure_model_internal, hres] at h
  · by_cases hmem : (w.cacheDir ++ "/" ++ spec.filename) ∈ fs
    · simp [ensure_model, ensure_model_internal, hres, hmem] at h
      obtain ⟨hfs, hpath⟩ := h
      subst hfs
      subst hpath
      refine ⟨?_, ?_, ?_⟩ <;>
        simp [ensure_model, ensure_model_stream, ensure_model_internal, hres, hmem,
          AssetEvent.isProgress]
    · rcases hdl : (download_file_with_events w (w.cacheDir ++ "/" ++ spec.filename) fs).result
        with e | u
      · simp [ensure_model, ensure_model_internal, hres, hmem, hdl] at h
      · simp [ensure_model, ensure_model_internal, hres, hmem, hdl] at h
        obtain ⟨hfs, hpath⟩ := h
        subst hfs
        subst hpath
        have hmem₁ : (w.cacheDir ++ "/" ++ spec.filename)
            ∈ (download_file_with_events w (w.cacheDir ++ "/" ++ spec.filename) fs).fs := by
          rw [download_ok_fs w _ fs ⟨u, hdl⟩]
          exact List.mem_insert_self _ _
        refine ⟨?_, ?_, ?_⟩ <;>
          simp [ensure_model, ensure_model_stream, ensure_model_internal, hres, hmem₁,
            AssetEvent.isProgress]

/-! ## C1 — correlation-id propagation -/

theorem forwardEngineItem_id (rid : String) (item : Except String InferenceEvent) :
    (forwardEngineItem rid item).id = some rid := by
  cases item <;> rfl

/-- **C1, counterexample.** An `Input` with `id = None` does not get its id
preserved bit-exactly: line 84 substitutes `"anon"`, so every `Output` emitted
in response to a `None`-id envelope carries `Some("anon")`, not `None`. -/
theorem C1_counterexample :
    ((handleMessage w0 [] st0 { id := none, command := .loadModel "nonexistent" }).map
      (fun r => r.outputs.map (fun o => o.id))) = some [some "anon", some "anon"]
    ∧ some "anon" ≠ (none : Option String) :=
  ⟨rfl, by simp⟩

/-- **C1, amended.** Every `Output` the orchestrator emits in response to an
`Input` carries `Some(request_id)` where `request_id` is the input's id with
`"anon"` substituted for `None`: ids `Some(x)` are preserved bit-exactly,
while a `None` id becomes `Some("anon")`. -/
theorem C1_id_propagation (w : World) (fs : FS) (st : OrchState) (msg : BrainstemInput)
    (r : HandleResult) (h : handleMessage w fs st msg = some r) :
    ∀ o ∈ r.outputs, o.id = some (msg.id.getD "anon") := by
  obtain ⟨mid, cmd⟩ := msg
  cases cmd with
  | loadModel name =>
      simp [handleMessage, Pinky.load_model] at h
      subst h
      intro o ho
      obtain ⟨e, _, rfl⟩ := List.mem_map.mp ho
      rfl
  | infer model prompt config =>
      by_cases hl : st.engine.model_loaded = true
      · simp [handleMessage, Pinky.is_loaded, hl, Pinky.infer] at h
        subst h
        intro o ho
        fin_cases ho <;> rfl
      · rcases hpair : ensure_model w ((model.or st.last_model_name).getD
            st.engine.default_model) fs with ⟨fs', res⟩
        rcases res with e | path
        · simp [handleMessage, Pinky.is_loaded, hl, hpair] at h
          subst h
          intro o ho
          fin_cases ho
          rfl
        · simp [handleMessage, Pinky.is_loaded, hl, hpair, Pinky.load_model,
            Pinky.infer] at h
          subst h
          intro o ho
          fin_cases ho <;> rfl
  | embed model input config =>
      by_cases hl : st.engine.model_loaded = true
      · simp [handleMessage, Pinky.is_loaded, hl, Pinky.embed] at h
        subst h
        intro o ho
        fin_cases ho <;> rfl
      · rcases hpair : ensure_model w ((model.or st.last_model_name).getD
            st.engine.default_model) fs with ⟨fs', res⟩
        rcases res with e | path
        · simp [handleMessage, Pinky.is_loaded, hl, hpair] at h
          subst h
          intro o ho
          fin_cases ho
          rfl
        · simp [handleMessage, Pinky.is_loaded, hl, hpair, Pinky.load_model,
            Pinky.embed] at h
          subst h
          intro o ho
          fin_cases ho <;> rfl
  | stop =>
      simp [handleMessage] at h
      subst h
      intro o ho
      exact absurd ho (List.not_mem_nil o)
  | listModels =>
      simp [handleMessage] at h
  | reset =>
      simp [handleMessage] at h

/-- **C1, witness.** The amended id-propagation law applied at the concrete
`LoadModel("tiny-model")` request with id `"r1"`. -/
theorem C1_id_propagation_witness :
    ({ id := some "r1", body := .asset (.started "tiny-model") } : BrainstemOutput).id
      = some "r1" :=
  C1_id_propagation w0 [] st0 { id := some "r1", command := .loadModel "tiny-model" } r0
    rfl { id := some "r1", body := .asset (.started "tiny-model") }
    (List.mem_cons_self _ _)

/-! ## C4 — `LoadModel` of a name missing from the registry -/

/-- **C4, counterexample.** After `LoadModel("nonexistent")` (a registry
miss), the orchestrator calls `engine.load_model` anyway with the raw name
(brainstem/src/lib.rs:108, the call is not conditioned on a `Complete`), and
the stub engine's `load_model` always succeeds — so `is_loaded()` becomes
true and `last_model_name` becomes `Some("nonexistent")`, refuting the
claim that both are left unchanged. -/
theorem C4_counterexample :
    ((handleMessage w0 [] st0 { id := some "r1", command := .loadModel "nonexistent" }).map
      (fun r => (r.state.engine.model_loaded, r.state.last_model_name)))
      = some (true, some "nonexistent")
    ∧ st0.engine.is_loaded = false ∧ st0.last_model_name = none :=
  ⟨rfl, rfl, rfl⟩

/-- **C4, amended.** A `LoadModel(name)` whose name misses the registry emits
exactly `Asset(Started(name))` then
`Asset(Error("Model 'name' not found in registry"))` and nothing else; but
the orchestrator then invokes `engine.load_model(name)` anyway, which the
stub engine accepts, so afterwards the engine is loaded and
`last_model_name = Some(name)`. -/
theorem C4_registry_miss_load (w : World) (fs : FS) (st : OrchState) (name : String)
    (mid : Option String) (hres : resolve w.registry name = none) :
    handleMessage w fs st { id := mid, command := .loadModel name } =
      some { outputs :=
               [{ id := some (mid.getD "anon"), body := .asset (.started name) },
                { id := some (mid.getD "anon"),
                  body := .asset (.error ("Model '" ++ name ++ "' not found in registry")) }],
             state := { engine := { model_loaded := true }, last_model_name := some name },
             fs := fs, stopped := false } := by
  simp [handleMessage, ensure_model_internal, hres, pathToLoad, Pinky.load_model]

/-- **C4, witness.** The amended statement at the concrete request
`LoadModel("nonexistent")` with id `"r1"` against `w0`. -/
theorem C4_registry_miss_load_witness :
    handleMessage w0 [] st0 { id := some "r1", command := .loadModel "nonexistent" } =
      some { outputs :=
               [{ id := some "r1", body := .asset (.started "nonexistent") },
                { id := some "r1",
                  body := .asset (.error "Model 'nonexistent' not found in registry") }],
             state := { engine := { model_loaded := true },
                        last_model_name := some "nonexistent" },
             fs := [], stopped := false } :=
  C4_registry_miss_load w0 [] st0 "nonexistent" (some "r1") (by decide)

/-! ## C5 — `ListModels` and `Reset` (spec-modelled) -/

/-- **C5.** (Against the spec-modelled handler, the source's dispatch match
having no arms for these variants.)  On `ListModels` the orchestrator emits
`Output{id, body=ModelList(descriptors)}` built from the registry; on `Reset`
it unloads the current model and emits a terminal `Event(Complete)` envelope
as acknowledgment, leaving the engine unloaded. -/
theorem C5_listModels_reset (w : World) (fs : FS) (st : OrchState) (mid : Option String) :
    handleMessageSpec w fs st { id := mid, command := .listModels } =
      some { outputs := [{ id := mid, body := .modelList (descriptorsOfRegistry w.registry) }],
             state := st, fs := fs, stopped := false }
    ∧ handleMessageSpec w fs st { id := mid, command := .reset } =
        some { outputs := [{ id := mid, body := .event .complete }],
               state := { engine := { model_loaded := false },
                          last_model_name := st.last_model_name },
               fs := fs, stopped := false } :=
  ⟨rfl, rfl⟩

/-! ## C10 — `Immediate` hibernation never busy-polls -/

/-- **C10.** Under the `Immediate` strategy every loop iteration computes
`timeout_duration = Some(Duration::ZERO)`; since `elapsed ≥ 0` always holds,
the iteration invokes `unload_model` (after which the engine is unloaded) and
then blocks on the inbound channel with no timeout — an unbounded blocking
receive, not a zero-duration poll. -/
theorem C10_immediate_hibernation (elapsed : Nat) (eng : Pinky) :
    (loopHead .immediate elapsed).unloadInvoked = true
    ∧ (loopHead .immediate elapsed).wait = .unbounded
    ∧ (engineAtWait (loopHead .immediate elapsed) eng).is_loaded = false := by
  have h : loopHead .immediate elapsed = { unloadInvoked := true, wait := .unbounded } := by
    simp [loopHead]
  refine ⟨by rw [h], by rw [h], by rw [h]; rfl⟩

/-! ## C6 — the `max_tokens` cutoff never fires -/

set_option maxRecDepth 100000 in
/-- **C6.** The source binds `n_decode = 0` once (engine_real.rs:147) and
never increments it, so the `n_decode >= max_tokens` disjunct of the stop
check is identically false: on an oracle of 600 tokens none of which is
end-of-sequence — more than the claimed 512-token cap — the generation loop
processes all 600 tokens (600 `Content` events), never breaks, and no
`Complete` is emitted within that window.  The claim (and the spec, and the
source's own comments `// generated tokens count`, `// Hard limit for
safety`) say generation must stop at `max_tokens = 512`. -/
theorem C6_generation_ignores_max_tokens :
    (runGenLoop true { in_think_block := false, token_str_buffer := "" } nonEosToks).2 = false
    ∧ countComplete (brainInfer true nonEosToks).1 = 0
    ∧ countContent (brainInfer true nonEosToks).1 = 600
    ∧ nonEosToks.length > max_tokens
    ∧ n_decode = 0 :=
  ⟨rfl, rfl, rfl, by decide, rfl⟩

/-! ## C7 — thought text with `show_thinking = false` -/

/-- **C7.** With `config.show_thinking = false` the `<think>` recognition is
skipped entirely (engine_real.rs:174 gates the opening check on
`config.show_thinking`): no `Thought` events are emitted — but the text of
the thought block, delimiters included, is emitted verbatim as `Content`
events, contradicting the claim that it never appears in any `Content`.
With `show_thinking = true` the same tokens are routed to `Thought` events
and kept out of `Content`. -/
theorem C7_think_text_leaks_into_content :
    (brainInfer false leakToks).1 =
      [.processStart, .content "<think>", .content "secret", .content "</think>",
       .content "done", .complete]
    ∧ countThought (brainInfer false leakToks).1 = 0
    ∧ contentMentions (brainInfer false leakToks).1 "secret" = true
    ∧ contentMentions (brainInfer false leakToks).1 "<think>" = true
    ∧ (brainInfer true leakToks).1 =
        [.processStart, .thought .start, .thought (.delta "secret"), .thought .stop,
         .content "done", .complete] :=
  ⟨rfl, rfl, rfl, rfl, rfl⟩

/-! ## C8 — bridge behaviour on a full subscriber buffer -/

theorem idxsWhere_succ {β : Type} (p : β → Bool) (i0 : Nat) (l : List β) :
    idxsWhere p (i0 + 1) l = (idxsWhere p i0 l).map (· + 1) := by
  induction l generalizing i0 with
  | nil => rfl
  | cons b t ih =>
      simp only [idxsWhere]
      by_cases hb : p b
      · rw [if_pos hb, if_pos hb, List.map_cons, ih (i0 + 1)]
      · rw [if_neg hb, if_neg hb, ih (i0 + 1)]

theorem foldl_eraseIdx_shift {γ : Type} (idxs : List Nat) (b : γ) (t : List γ) :
    (idxs.map (· + 1)).foldl (fun acc i => acc.eraseIdx i) (b :: t) =
      b :: idxs.foldl (fun acc i => acc.eraseIdx i) t := by
  induction idxs generalizing t with
  | nil => rfl
  | cons i is ih =>
      simp only [List.map_cons, List.foldl_cons, List.eraseIdx_cons_succ]
      exact ih _

/-- Removing, in reverse order, the indices of the elements satisfying `p`
from a mapped copy of the list is the same as filtering those elements out
before mapping. -/
theorem removeIdxs_filter {β γ : Type} (p : β → Bool) (g : β → γ) (l : List β) :
    ((idxsWhere p 0 l).reverse).foldl (fun acc i => acc.eraseIdx i) (l.map g) =
      (l.filter (fun b => !p b)).map g := by
  induction l with
  | nil => rfl
  | cons b t ih =>
      simp only [idxsWhere, List.map_cons, List.filter_cons]
      by_cases hb : p b
      · rw [if_pos hb, idxsWhere_succ, List.reverse_cons, ← List.map_reverse,
          List.foldl_append, foldl_eraseIdx_shift, ih]
        simp [hb]
      · rw [if_neg hb, idxsWhere_succ, ← List.map_reverse, foldl_eraseIdx_shift, ih]
        simp [hb]

theorem trySend_snd_eq {α : Type} (s : Subscriber α) (msg : α) :
    ((trySend s msg).2 == some TrySendError.disconnected) = s.disconnected := by
  by_cases hd : s.disconnected = true <;> by_cases hf : s.freeSlots = 0 <;>
    simp_all [trySend]

/-- **C8, counterexample.** A live subscriber whose bounded buffer is full is
*not* removed by the bridge: `try_send` fails with `is_full`, which is not
`is_disconnected`, so the subscriber stays registered (it merely misses the
envelope) — refuting the claim that a full buffer is treated as a
disconnection.  The other subscriber still receives the envelope. -/
theorem C8_counterexample :
    bridgeStep [fullSub, okSub] 7 =
      [fullSub, { disconnected := false, freeSlots := 4, received := [7] }]
    ∧ fullSub.disconnected = false ∧ fullSub.freeSlots = 0
    ∧ bridgeStep [fullSub, closedSub, okSub] 7 =
        [fullSub, { disconnected := false, freeSlots := 4, received := [7] }] :=
  ⟨rfl, rfl, rfl, rfl⟩

/-- **C8, amended.** When the bridge forwards an envelope, exactly the
subscribers whose receiver is disconnected are removed; every remaining
subscriber is the result of `try_send`ing the envelope to it — a subscriber
with buffer room receives the envelope, and a subscriber with a full buffer
stays registered but misses that envelope. -/
theorem C8_bridge_prunes_only_disconnected {α : Type} (subs : List (Subscriber α)) (msg : α) :
    bridgeStep subs msg =
      (subs.filter (fun s => !s.disconnected)).map (fun s => (trySend s msg).1) := by
  simp only [bridgeStep]
  rw [removeIdxs_filter (fun r => r.2 == some TrySendError.disconnected) Prod.fst
    (subs.map (fun s => trySend s msg))]
  rw [List.filter_map, List.map_map]
  have : ∀ s ∈ subs,
      ((fun r => !(r.2 == some TrySendError.disconnected)) ∘ fun s => trySend s msg) s
        = !s.disconnected := by
    intro s _
    simp [Function.comp, trySend_snd_eq]
  rw [List.filter_congr this]
  rfl

/-- **C9, witness.** At the concrete successful world: the first call from an
empty cache downloads and publishes `/cache/tiny.gguf`; the second call
returns the same path with stream exactly `Started → Complete`. -/
theorem C9_ensure_model_idempotent_witness :
    ensure_model w0 "tiny-model" ["/cache/tiny.gguf"] =
      (["/cache/tiny.gguf"], .ok "/cache/tiny.gguf")
    ∧ (ensure_model_stream w0 "tiny-model" ["/cache/tiny.gguf"]).1 =
        [.started "tiny-model", .complete "/cache/tiny.gguf"]
    ∧ countProgress (ensure_model_stream w0 "tiny-model" ["/cache/tiny.gguf"]).1 = 0 :=
  C9_ensure_model_idempotent w0 "tiny-model" [] ["/cache/tiny.gguf"] "/cache/tiny.gguf" rfl

end RustyGenius
